import Mathlib

/-!
Shallow embedding of the per-frame molecular-orbital job pipeline of
SCM-NV/qmworks-namd — `nanoqm/schedule/components.py` together with the
legacy `nac/schedule/components.py` variants — and theorems settling the
specification's claims about it.

Modelling conventions:
* The HDF5 store is the list of node paths already present in the file.
* A noodles promise is the inductive `Promise`, recording the dependency
  graph job construction builds.  `prepare_job_cp2k` (`scheduleCP2K.py`) is
  not among the given sources; per the spec it is the opaque solver
  invocation, so a job node records only which settings bag it received, the
  frame index, and the warm-start handle it embeds.  The `schedule_check`
  wrapper is a `Promise.check` node.
* Only the length of `config.geometries` matters to the claims (the geometry
  string is passed opaquely to the solver), so the pipeline runs on the
  number of frames; likewise the `file_cell_parameters` branch of
  `calculate_mos` only mutates the two opaque solver settings bags and is
  absorbed into them.
* HDF5 node names are plain strings; `pjoin` is `os.path.join` on relative
  components.  Filesystem paths handled by `create_point_folder` are lists
  of path segments, so that `shutil.rmtree` is removal of every path having
  the directory as a segment-wise prefix.
-/

/-- os.path.join on two relative components. -/
def pjoin (a b : String) : String := a ++ "/" ++ b

/-- The configuration fields of `nanoqm.schedule.components` that the frame
pipeline reads (`config` of `calculate_mos`; the opaque solver settings bags
and file paths are absorbed into the job nodes). -/
structure Config where
  project_name : String
  package_name : String
  enumerate_from : Nat
  compute_orbitals : Bool
  ignore_warnings : Bool
  calc_new_wf_guess_on_points : List Nat
deriving DecidableEq

/-- Which of the two solver settings bags a job was given
(`general["cp2k_settings_guess"]` / `general["cp2k_settings_main"]`). -/
inductive SettingsKind where
  | cp2k_settings_guess
  | cp2k_settings_main
deriving DecidableEq

/-- A noodles promise as the job-construction functions build it: a
`prepare_job_cp2k` node (settings bag, frame index, embedded warm-start
handle) or a `schedule_check` wrapper around a promise. -/
inductive Promise where
  | job (settings : SettingsKind) (k : Nat) (guess : Option Promise)
  | check (p : Promise)

mutual

/-- Structural decidable equality on promises. -/
def Promise.decEq : (a b : Promise) → Decidable (a = b)
  | Promise.job s k g, Promise.job s' k' g' =>
    match Promise.decEqOpt g g' with
    | isTrue hg =>
      if hs : s = s' then
        if hk : k = k' then isTrue (by rw [hs, hk, hg])
        else isFalse (by intro h; injection h with h1 h2 h3; exact hk h2)
      else isFalse (by intro h; injection h with h1 h2 h3; exact hs h1)
    | isFalse hg => isFalse (by intro h; injection h with h1 h2 h3; exact hg h3)
  | Promise.job _ _ _, Promise.check _ => isFalse fun h => Promise.noConfusion h
  | Promise.check _, Promise.job _ _ _ => isFalse fun h => Promise.noConfusion h
  | Promise.check p, Promise.check p' =>
    match Promise.decEq p p' with
    | isTrue hp => isTrue (by rw [hp])
    | isFalse hp => isFalse (by intro h; injection h with h1; exact hp h1)

/-- Structural decidable equality on optional promises. -/
def Promise.decEqOpt : (a b : Option Promise) → Decidable (a = b)
  | none, none => isTrue rfl
  | none, some _ => isFalse fun h => Option.noConfusion h
  | some _, none => isFalse fun h => Option.noConfusion h
  | some p, some p' =>
    match Promise.decEq p p' with
    | isTrue hp => isTrue (by rw [hp])
    | isFalse hp => isFalse (by intro h; injection h with h1; exact hp h1)

end

instance : DecidableEq Promise := Promise.decEq

/-- A warning the solver emitted, as recorded in the `warnings` dict of a
finished plams/qmflows job: `qmflows.warnings_qmflows.SCF_Convergence_Warning`
or some other warning class. -/
inductive WarningTy where
  | SCF_Convergence_Warning
  | other (name : String)
deriving DecidableEq

/-- `promise_qm.warnings`: `None`, or the items of the message-to-class dict. -/
abbrev Warnings := Option (List (String × WarningTy))

/-- Modelled from the spec: `is_data_in_hdf5` lives in `nanoqm/common.py`,
which is not among the given sources.  Per §4.1 the existence check is true
iff every key of the (possibly composite) key set is already present; the
in-source legacy variant `nac.search_data_in_hdf5` has exactly these
semantics. -/
def is_data_in_hdf5 (f5 : List String) (paths : List String) : Bool :=
  paths.all fun path => f5.contains path

/-- The root `{project}/point_{k}/{package}/mo` under which frame `k`'s
artifacts are stored (`calculate_mos`, `components.py`). -/
def mo_root (config : Config) (k : Nat) : String :=
  pjoin (pjoin (pjoin config.project_name ("point_" ++ toString k)) config.package_name) "mo"

/-- `dict_input["node_MOs"]`: eigenvalues and coefficients nodes of frame `k`. -/
def node_MOs (config : Config) (k : Nat) : List String :=
  [pjoin (mo_root config k) "eigenvalues", pjoin (mo_root config k) "coefficients"]

/-- `dict_input["node_energy"]`: the total-energy node of frame `k`. -/
def node_energy (config : Config) (k : Nat) : String :=
  pjoin (mo_root config k) "energy"

/-- The key set the skip check queries for frame `k` (`predicate` in
`calculate_mos`): the MO pair when orbitals are requested, else the single
energy node (the source passes the bare string; `is_data_in_hdf5` treats it
as the singleton key set). -/
def predicate_keys (config : Config) (k : Nat) : List String :=
  if config.compute_orbitals then node_MOs config k else [node_energy config k]

/-- `compute_orbitals` of `nanoqm/schedule/components.py`: build frame `k`'s
job(s).  `compute_guess` is `config.calc_new_wf_guess_on_points is not None`
in the source; a `None` list would raise `TypeError` at the membership test
on the very next line, so every reachable configuration carries a list and
`compute_guess` is true. -/
def compute_orbitals (config : Config) (k : Nat) (guess_job : Option Promise) : Promise :=
  let compute_guess := true
  let is_restart := guess_job.isNone && compute_guess
  let pred := config.calc_new_wf_guess_on_points.contains k || is_restart
  let guess_job :=
    if pred then some (Promise.job SettingsKind.cp2k_settings_guess k guess_job) else guess_job
  Promise.job SettingsKind.cp2k_settings_main k guess_job

/-- One entry of the `orbitals` list of `calculate_mos`: the bare key pair a
cached frame appends, the `store_MOs` node a fresh frame appends when
orbitals are requested (it returns `node_MOs` and depends on the checked
promise), or the literal `None` appended otherwise. -/
inductive OrbEntry where
  | cached (keys : List String)
  | stored (keys : List String) (qm : Promise)
  | skippedNone
deriving DecidableEq

/-- What happened to one frame during the `calculate_mos` walk: skipped as
cached, or scheduled with the main promise `compute_orbitals` returned
(before the `schedule_check` wrapper). -/
inductive FrameEvent where
  | cachedEv (k : Nat)
  | scheduledEv (k : Nat) (main : Promise)
deriving DecidableEq

/-- The observable outcome of the `calculate_mos` walk: the two collected
lists (an energies entry is the `store_enery` node: its key and the checked
promise it depends on) and the per-frame trace. -/
structure RunState where
  orbitals : List OrbEntry
  energies : List (String × Promise)
  trace : List FrameEvent
deriving DecidableEq

/-- The loop of `calculate_mos` from loop index `j` on, with `n` geometries
left and the current `guess_job`.  A cache hit appends the bare `node_MOs`
to `orbitals`, touches neither `energies` nor `guess_job`, and builds no
job; a miss builds the main promise, wraps it in `schedule_check`, appends
the `store_MOs` node (or `None`) and the `store_enery` node, and the checked
promise becomes the new `guess_job`. -/
def calculate_mos_go (config : Config) (f5 : List String) :
    Nat → Nat → Option Promise → RunState
  | 0, _j, _guess_job => ⟨[], [], []⟩
  | n + 1, j, guess_job =>
    let k := j + config.enumerate_from
    if is_data_in_hdf5 f5 (predicate_keys config k) then
      let rest := calculate_mos_go config f5 n (j + 1) guess_job
      ⟨OrbEntry.cached (node_MOs config k) :: rest.orbitals,
       rest.energies,
       FrameEvent.cachedEv k :: rest.trace⟩
    else
      let promise_qm := compute_orbitals config k guess_job
      let checked := Promise.check promise_qm
      let rest := calculate_mos_go config f5 n (j + 1) (some checked)
      ⟨(if config.compute_orbitals then OrbEntry.stored (node_MOs config k) checked
         else OrbEntry.skippedNone) :: rest.orbitals,
       (node_energy config k, checked) :: rest.energies,
       FrameEvent.scheduledEv k promise_qm :: rest.trace⟩

/-- `calculate_mos` on `n_geometries` frames: walk the frames from loop
index 0 with no initial guess. -/
def calculate_mos (config : Config) (f5 : List String) (n_geometries : Nat) : RunState :=
  calculate_mos_go config f5 n_geometries 0 none

/-- fnmatch pattern `mo*MOLog` used by `schedule_check`: the whole name is
`mo`, then anything, then `MOLog` (phrased over the character list so the
match is the literal decomposition `mo ++ x ++ MOLog`). -/
def fnmatch_moMOLog (s : String) : Bool :=
  "mo".data.isPrefixOf s.data && "MOLog".data.isSuffixOf s.data &&
    decide (7 ≤ s.data.length)

/-- fnmatch pattern `mo_*MOLog` used by `store_MOs`. -/
def fnmatch_mo_us_MOLog (s : String) : Bool :=
  "mo_".data.isPrefixOf s.data && "MOLog".data.isSuffixOf s.data &&
    decide (8 ≤ s.data.length)

/-- Result of running the body of the scheduled `schedule_check` node once
its input promise finished: the promise is returned unchanged (accepted), or
a corrective resubmission was built after appending `k` to the restart list
and removing the stale MOLog file, or the MOLog lookup `[0]` raised
`IndexError` on an empty match list. -/
inductive CheckStep where
  | accepted (p : Promise)
  | rejected (new_points : List Nat) (retry : Promise) (removed : String)
  | fileError
deriving DecidableEq

/-- The runtime body of `schedule_check`: reject iff warnings are not
ignored, the warning dict is not `None`, and some entry's class is the SCF
convergence warning; on reject, remove the first `mo*MOLog` file of
`point_dir`, append `k` to `calc_new_wf_guess_on_points`, and rebuild the
frame via `compute_orbitals` with guess `None` — returned WITHOUT a further
`schedule_check` wrapper. -/
def schedule_check_step (config : Config) (point_dir_files : List String) (k : Nat)
    (warnings : Warnings) (promise_qm : Promise) : CheckStep :=
  if !config.ignore_warnings && warnings.isSome &&
      (warnings.getD []).any (fun mw => mw.2 == WarningTy.SCF_Convergence_Warning) then
    match point_dir_files.filter fnmatch_moMOLog with
    | [] => CheckStep.fileError
    | path :: _ =>
      let config' :=
        { config with
          calc_new_wf_guess_on_points := config.calc_new_wf_guess_on_points ++ [k] }
      CheckStep.rejected config'.calc_new_wf_guess_on_points
        (compute_orbitals config' k none) path
  else CheckStep.accepted promise_qm

/-- Whether a promise graph contains a `schedule_check` node anywhere along
its warm-start chain: only such nodes ever inspect warnings. -/
def containsCheck : Promise → Bool
  | Promise.job _ _ none => false
  | Promise.job _ _ (some g) => containsCheck g
  | Promise.check _ => true

/-- The error a frame run can surface: the unguarded `[0]` lookup of the
MOLog scratch file. -/
inductive RunErr where
  | indexError
deriving DecidableEq

/-- Modelled runtime of one non-cached frame under noodles evaluation, as
`calculate_mos` wires it: the frame's jobs are built by `compute_orbitals`
and submitted; `oracle i` gives the warnings the `i`-th submission of the
frame's main computation emits; the `schedule_check` wrapper inspects the
first submission's warnings.  On accept the first result stands; on reject
the corrective promise built by `schedule_check` is submitted once more and
— because the source returns `compute_orbitals(config, dict_input, None)`
with no further `schedule_check` wrapper — its result is final, its warnings
never inspected.  Returns how many times the frame's main computation was
submitted, and the warnings carried by the result the pipeline keeps (or the
`IndexError` from the reject path's file cleanup). -/
def run_frame (config : Config) (k : Nat) (guess_job : Option Promise)
    (oracle : Nat → Warnings) (point_dir_files : List String) :
    Nat × Except RunErr Warnings :=
  let promise_qm := compute_orbitals config k guess_job
  match schedule_check_step config point_dir_files k (oracle 0) promise_qm with
  | CheckStep.accepted _ => (1, Except.ok (oracle 0))
  | CheckStep.fileError => (1, Except.error RunErr.indexError)
  | CheckStep.rejected _ _retry _ => (2, Except.ok (oracle 1))

/-- `dump_orbitals_to_hdf5`: store the eigenvalues and coefficients arrays
under `{project}/{job_name}/cp2k/mo/...` (`store_arrays_in_hdf5` is not
among the given sources; per §4.1 a write makes the key present). -/
def dump_orbitals_to_hdf5 (f5 : List String) (project_name job_name : String) : List String :=
  f5 ++ [pjoin (pjoin project_name job_name) "cp2k/mo/eigenvalues",
         pjoin (pjoin project_name job_name) "cp2k/mo/coefficients"]

/-- Outcome of the scheduled `store_MOs` node: the store after the dump, the
scratch file removed and the returned `node_MOs`; or the `IndexError` the
`finally` block raises when no `mo_*MOLog` file exists (the dump has already
run by then). -/
inductive StoreMOsOutcome where
  | ok (f5 : List String) (removed : String) (ret : List String)
  | indexError (f5 : List String)
deriving DecidableEq

/-- The body of `store_MOs`: dump the orbitals, then — in a `finally` block,
with no exception handler — look up the first `mo_*MOLog` file of the
working directory with `fnmatch.filter(...)[0]` and remove it.  When no file
matches, the `[0]` lookup raises `IndexError`, which propagates to the
caller; otherwise `node_MOs` is returned. -/
def store_MOs (f5 : List String) (project_name job_name : String)
    (node_MOs_keys : List String) (work_dir_files : List String) : StoreMOsOutcome :=
  let f5' := dump_orbitals_to_hdf5 f5 project_name job_name
  match work_dir_files.filter fnmatch_mo_us_MOLog with
  | [] => StoreMOsOutcome.indexError f5'
  | path_MOs :: _ => StoreMOsOutcome.ok f5' path_MOs node_MOs_keys

/-- A filesystem path as its list of segments. -/
abbrev FsPath := List String

/-- `os.path.exists` on the segment-level filesystem model. -/
def path_exists (fs : List FsPath) (p : FsPath) : Bool := fs.contains p

/-- `shutil.rmtree`: remove the directory and every path below it. -/
def rmtree (fs : List FsPath) (d : FsPath) : List FsPath :=
  fs.filter fun p => !(d.isPrefixOf p)

/-- `os.makedirs` on a path whose parent already exists. -/
def makedirs (fs : List FsPath) (d : FsPath) : List FsPath := d :: fs

/-- `join(work_dir, f'point_{k}')`. -/
def point_dir_path (work_dir : FsPath) (k : Nat) : FsPath :=
  work_dir ++ ["point_" ++ toString k]

/-- The loop of `nanoqm`'s `create_point_folder`: for each `k`, delete the
point folder if it exists, recreate it, and append it to the returned
list. -/
def create_point_folder_go (work_dir : FsPath) :
    List FsPath → Nat → Nat → List FsPath × List FsPath
  | fs, 0, _k => (fs, [])
  | fs, n + 1, k =>
    let new_dir := point_dir_path work_dir k
    let fs' := if path_exists fs new_dir then rmtree fs new_dir else fs
    let fs'' := makedirs fs' new_dir
    let r := create_point_folder_go work_dir fs'' n (k + 1)
    (r.1, new_dir :: r.2)

/-- `create_point_folder` of `nanoqm/schedule/components.py`: returns the
filesystem after the walk and the created folder list. -/
def create_point_folder (fs : List FsPath) (work_dir : FsPath) (n enumerate_from : Nat) :
    List FsPath × List FsPath :=
  create_point_folder_go work_dir fs n enumerate_from

namespace nac

/-- The loop of the legacy `nac`' s `create_point_folder`: the folder is
created only when absent — a pre-existing folder is reused untouched. -/
def create_point_folder_go (work_dir : FsPath) :
    List FsPath → Nat → Nat → List FsPath × List FsPath
  | fs, 0, _k => (fs, [])
  | fs, n + 1, k =>
    let new_dir := point_dir_path work_dir k
    let fs' := if !path_exists fs new_dir then makedirs fs new_dir else fs
    let r := create_point_folder_go work_dir fs' n (k + 1)
    (r.1, new_dir :: r.2)

/-- `create_point_folder` of `nac/schedule/components.py`. -/
def create_point_folder (fs : List FsPath) (work_dir : FsPath) (n enumerate_from : Nat) :
    List FsPath × List FsPath :=
  nac.create_point_folder_go work_dir fs n enumerate_from

/-- `create_properties_path` of `nac`' s `calculate_mos`: the eigenvalues and
coefficients nodes of point `i`. -/
def create_properties_path (project_name package_name : String) (i : Nat) : List String :=
  let rs := pjoin (pjoin (pjoin project_name ("point_" ++ toString i)) package_name) "mo"
  [pjoin rs "eigenvalues", pjoin rs "coefficients"]

/-- `search_data_in_hdf5` of `nac`' s `calculate_mos`: the composite key set
of point `i` when every key of it is present, else `None`
(`create_properties_path` always returns a list, so the source's non-list
branch is dead). -/
def search_data_in_hdf5 (f5 : List String) (project_name package_name : String) (i : Nat) :
    Option (List String) :=
  let paths_to_prop := create_properties_path project_name package_name i
  let pred := paths_to_prop.all fun path => f5.contains path
  if pred then some paths_to_prop else none

end nac

/-! ## Shared concrete inputs used by witnesses and counterexamples -/

/-- A minimal orbital-persisting configuration: project `p`, package `cp2k`,
enumeration from 0, warnings validated, no restart points. -/
def cfg_orb : Config := ⟨"p", "cp2k", 0, true, false, []⟩

/-- The same configuration in energy-only mode (`compute_orbitals = False`). -/
def cfg_energy_only : Config := ⟨"p", "cp2k", 0, false, false, []⟩

/-- The orbital configuration with frame 1 designated a restart point. -/
def cfg_restart1 : Config := ⟨"p", "cp2k", 0, true, false, [1]⟩

/-- The orbital configuration with the out-of-range restart point 99. -/
def cfg_oor : Config := ⟨"p", "cp2k", 0, true, false, [99]⟩

/-- A warnings dict holding one SCF non-convergence entry. -/
def scf_warnings : Warnings :=
  some [("SCF did not converge", WarningTy.SCF_Convergence_Warning)]

/-- A solver oracle that reports the SCF convergence warning on every
submission. -/
def always_scf : Nat → Warnings := fun _ => scf_warnings

/-! ## C1 -/

/-- C1, counterexample.  The claim says a frame whose artifact keys are
already present contributes exactly the pre-existing key set to the result
sequence.  In energy-only mode (`compute_orbitals = False`) the skip check
queries (and finds) only the energy key, yet the cached branch appends the
MO key pair — two keys that were never checked and are absent from the
store — so the appended set is not the pre-existing key set. -/
theorem C1_cached_skip_counterexample :
    (calculate_mos cfg_energy_only ["p/point_0/cp2k/mo/energy"] 1).orbitals =
      [OrbEntry.cached ["p/point_0/cp2k/mo/eigenvalues", "p/point_0/cp2k/mo/coefficients"]] ∧
    predicate_keys cfg_energy_only 0 = ["p/point_0/cp2k/mo/energy"] ∧
    ["p/point_0/cp2k/mo/eigenvalues", "p/point_0/cp2k/mo/coefficients"] ≠
      ["p/point_0/cp2k/mo/energy"] :=
  ⟨rfl, rfl, by decide⟩

/-- C1, amended.  For every frame whose checked key set (the MO pair when
orbital persistence is enabled, else the energy key) is already stored, the
pipeline appends the frame's MO key pair to the orbitals sequence — which
equals the checked pre-existing key set exactly when orbital persistence is
enabled — appends nothing to the energies sequence, builds no job, invokes
no solver, and threads the current guess handle to the rest of the run
unchanged (the remainder of the run is literally the same walk with the
same `guess_job`). -/
theorem C1_cached_skip_amended (config : Config) (f5 : List String) (n j : Nat)
    (guess_job : Option Promise)
    (h : is_data_in_hdf5 f5 (predicate_keys config (j + config.enumerate_from)) = true) :
    calculate_mos_go config f5 (n + 1) j guess_job =
      { orbitals := OrbEntry.cached (node_MOs config (j + config.enumerate_from)) ::
          (calculate_mos_go config f5 n (j + 1) guess_job).orbitals,
        energies := (calculate_mos_go config f5 n (j + 1) guess_job).energies,
        trace := FrameEvent.cachedEv (j + config.enumerate_from) ::
          (calculate_mos_go config f5 n (j + 1) guess_job).trace } ∧
    (config.compute_orbitals = true →
      predicate_keys config (j + config.enumerate_from) =
        node_MOs config (j + config.enumerate_from)) := by
  constructor
  · simp [calculate_mos_go, h]
  · intro hc
    simp [predicate_keys, hc]

/-- C1, witness: the amended statement at a one-frame run whose MO keys are
already stored. -/
theorem C1_cached_skip_witness :
    calculate_mos_go cfg_orb
        ["p/point_0/cp2k/mo/eigenvalues", "p/point_0/cp2k/mo/coefficients"] (0 + 1) 0 none =
      { orbitals := OrbEntry.cached (node_MOs cfg_orb (0 + cfg_orb.enumerate_from)) ::
          (calculate_mos_go cfg_orb
            ["p/point_0/cp2k/mo/eigenvalues", "p/point_0/cp2k/mo/coefficients"] 0 (0 + 1)
            none).orbitals,
        energies := (calculate_mos_go cfg_orb
          ["p/point_0/cp2k/mo/eigenvalues", "p/point_0/cp2k/mo/coefficients"] 0 (0 + 1)
          none).energies,
        trace := FrameEvent.cachedEv (0 + cfg_orb.enumerate_from) ::
          (calculate_mos_go cfg_orb
            ["p/point_0/cp2k/mo/eigenvalues", "p/point_0/cp2k/mo/coefficients"] 0 (0 + 1)
            none).trace } ∧
    (cfg_orb.compute_orbitals = true →
      predicate_keys cfg_orb (0 + cfg_orb.enumerate_from) =
        node_MOs cfg_orb (0 + cfg_orb.enumerate_from)) :=
  C1_cached_skip_amended cfg_orb
    ["p/point_0/cp2k/mo/eigenvalues", "p/point_0/cp2k/mo/coefficients"] 0 0 none rfl

/-! ## C6 -/

/-- The key list an orbitals entry carries (`None` for the literal `None`
the energy-only fresh branch appends). -/
def orbEntryKeys : OrbEntry → Option (List String)
  | OrbEntry.cached keys => some keys
  | OrbEntry.stored keys _ => some keys
  | OrbEntry.skippedNone => none

/-- C6, counterexample.  The claim says every frame — cached or fresh —
contributes exactly one entry to each of the two returned sequences.  A
one-frame run whose MO keys are already stored appends the cached keys to
the orbitals list but nothing to the energies list: the cached branch of
`calculate_mos` has no `energies.append`, so the energy sequence comes back
empty. -/
theorem C6_parallel_sequences_counterexample :
    (calculate_mos cfg_orb
        ["p/point_0/cp2k/mo/eigenvalues", "p/point_0/cp2k/mo/coefficients"] 1).energies = [] ∧
    (calculate_mos cfg_orb
        ["p/point_0/cp2k/mo/eigenvalues", "p/point_0/cp2k/mo/coefficients"] 1).orbitals.length
      = 1 :=
  ⟨rfl, rfl⟩

/-- C6, amended.  The walk preserves frame-index order in both returned
sequences, and the orbitals sequence gets exactly one entry per frame; but
only non-cached frames contribute to the energies sequence (cached frames
contribute to the orbitals sequence alone), so the two sequences are
parallel only in a run without cache hits: the energy keys come back as the
in-order image of exactly the frames whose skip check missed. -/
theorem C6_parallel_sequences_amended :
    ∀ (config : Config) (f5 : List String) (n j : Nat) (guess_job : Option Promise),
      (calculate_mos_go config f5 n j guess_job).orbitals.length = n ∧
      (calculate_mos_go config f5 n j guess_job).energies.map Prod.fst =
        ((List.range' j n).filter (fun m =>
            !is_data_in_hdf5 f5 (predicate_keys config (m + config.enumerate_from)))).map
          (fun m => node_energy config (m + config.enumerate_from)) ∧
      (calculate_mos_go config f5 n j guess_job).orbitals.map orbEntryKeys =
        (List.range' j n).map (fun m =>
          if is_data_in_hdf5 f5 (predicate_keys config (m + config.enumerate_from)) then
            some (node_MOs config (m + config.enumerate_from))
          else if config.compute_orbitals then
            some (node_MOs config (m + config.enumerate_from))
          else none) := by
  intro config f5 n
  induction n with
  | zero => intro j guess_job; simp [calculate_mos_go]
  | succ n ih =>
    intro j guess_job
    rw [List.range'_succ]
    by_cases h : is_data_in_hdf5 f5 (predicate_keys config (j + config.enumerate_from)) = true
    · obtain ⟨ih1, ih2, ih3⟩ := ih (j + 1) guess_job
      refine ⟨?_, ?_, ?_⟩ <;>
        simp [calculate_mos_go, h, ih1, ih2, ih3, orbEntryKeys]
    · have h' : is_data_in_hdf5 f5 (predicate_keys config (j + config.enumerate_from)) = false :=
        by simpa using h
      obtain ⟨ih1, ih2, ih3⟩ := ih (j + 1) (some (Promise.check
        (compute_orbitals config (j + config.enumerate_from) guess_job)))
      by_cases hco : config.compute_orbitals = true
      · refine ⟨?_, ?_, ?_⟩ <;>
          simp [calculate_mos_go, h', hco, ih1, ih2, ih3, orbEntryKeys]
      · have hco' : config.compute_orbitals = false := by simpa using hco
        refine ⟨?_, ?_, ?_⟩ <;>
          simp [calculate_mos_go, h', hco', ih1, ih2, ih3, orbEntryKeys]

/-! ## C9 -/

/-- C9, counterexample.  The claim says a failed deletion of the orbital-log
scratch file (for example, a missing file) is swallowed and logged, never
propagated.  In `store_MOs` the deletion runs in a bare `finally` block as
`fnmatch.filter(os.listdir(work_dir), 'mo_*MOLog')[0]`: with no matching
file the `[0]` lookup raises `IndexError`, and with no handler around it the
error propagates to the caller (after the dump has already run). -/
theorem C9_cleanup_failure_counterexample :
    store_MOs [] "p" "point_0"
        ["p/point_0/cp2k/mo/eigenvalues", "p/point_0/cp2k/mo/coefficients"]
        ["point_0.out", "point_0.inp"] =
      StoreMOsOutcome.indexError
        ["p/point_0/cp2k/mo/eigenvalues", "p/point_0/cp2k/mo/coefficients"] :=
  rfl

/-- C9, amended.  On the accept path, after handing the MOs to persistence,
`store_MOs` unconditionally removes the first `mo_*MOLog` file of the job's
working directory and returns the MO key pair; but when no such file exists
the lookup raises `IndexError`, which propagates to the caller — the
deletion failure is neither swallowed nor downgraded to a warning. -/
theorem C9_cleanup_failure_amended (f5 : List String) (project_name job_name : String)
    (node_MOs_keys work_dir_files : List String) :
    (work_dir_files.filter fnmatch_mo_us_MOLog = [] →
      store_MOs f5 project_name job_name node_MOs_keys work_dir_files =
        StoreMOsOutcome.indexError (dump_orbitals_to_hdf5 f5 project_name job_name)) ∧
    (∀ path rest, work_dir_files.filter fnmatch_mo_us_MOLog = path :: rest →
      store_MOs f5 project_name job_name node_MOs_keys work_dir_files =
        StoreMOsOutcome.ok (dump_orbitals_to_hdf5 f5 project_name job_name) path
          node_MOs_keys) := by
  constructor
  · intro h
    simp [store_MOs, h]
  · intro path rest h
    simp [store_MOs, h]

/-- C9, witness: the amended accept path at a working directory holding one
matching scratch file. -/
theorem C9_cleanup_failure_witness :
    store_MOs [] "p" "point_0" ["a", "b"] ["mo_aMOLog"] =
      StoreMOsOutcome.ok (dump_orbitals_to_hdf5 [] "p" "point_0") "mo_aMOLog" ["a", "b"] :=
  (C9_cleanup_failure_amended [] "p" "point_0" ["a", "b"] ["mo_aMOLog"]).2 "mo_aMOLog" []
    (by decide)

/-! ## C3 -/

/-- C3, counterexample.  The claim says that after the second convergence
failure the pipeline surfaces a terminal per-frame fatal error.  With a
solver that warns on every submission, the frame is submitted exactly twice
— but the corrective promise `schedule_check` returns is built by
`compute_orbitals(config, dict_input, None)` with no further
`schedule_check` wrapper, so the second result is accepted as-is: the run
ends in a normal result still carrying the SCF warning, not in an error. -/
theorem C3_single_retry_counterexample :
    run_frame cfg_orb 0 none always_scf ["mo_aMOLog"] = (2, Except.ok scf_warnings) ∧
    (run_frame cfg_orb 0 none always_scf ["mo_aMOLog"]).2 ≠
      Except.error RunErr.indexError :=
  ⟨rfl, fun h => Except.noConfusion h⟩

/-- C3, amended.  For a solver that reports an SCF convergence warning on
every submission of a non-cached frame (and a working directory holding the
scratch log the reject path removes), the pipeline attempts exactly two
submissions — the original plus one corrective retry — and never a third
for any solver behaviour; but instead of surfacing a terminal error it
accepts the second submission's result unchecked: the corrective promise
contains no `schedule_check` node, so its warnings are never inspected and
the final result still carries the SCF warning. -/
theorem C3_single_retry_amended (config : Config) (k : Nat) (guess_job : Option Promise)
    (oracle : Nat → Warnings) (point_dir_files : List String)
    (hig : config.ignore_warnings = false)
    (hw : ∀ i, ∃ mw ∈ (oracle i).getD [], mw.2 = WarningTy.SCF_Convergence_Warning)
    (hfile : point_dir_files.filter fnmatch_moMOLog ≠ []) :
    run_frame config k guess_job oracle point_dir_files = (2, Except.ok (oracle 1)) ∧
    (∃ mw ∈ (oracle 1).getD [], mw.2 = WarningTy.SCF_Convergence_Warning) ∧
    containsCheck (compute_orbitals
      { config with
        calc_new_wf_guess_on_points := config.calc_new_wf_guess_on_points ++ [k] }
      k none) = false ∧
    (∀ oracle' : Nat → Warnings,
      (run_frame config k guess_job oracle' point_dir_files).1 ≤ 2) := by
  have hsome : (oracle 0).isSome = true := by
    obtain ⟨mw, hm, _⟩ := hw 0
    cases h0 : oracle 0 with
    | none => rw [h0] at hm; simp at hm
    | some ws => rfl
  have hany : ((oracle 0).getD []).any
      (fun mw => mw.2 == WarningTy.SCF_Convergence_Warning) = true := by
    obtain ⟨mw, hm, he⟩ := hw 0
    exact List.any_eq_true.mpr ⟨mw, hm, by simp [he]⟩
  have hcond : (!config.ignore_warnings && (oracle 0).isSome &&
      ((oracle 0).getD []).any (fun mw => mw.2 == WarningTy.SCF_Convergence_Warning)) = true := by
    simp [hig, hsome, hany]
  obtain ⟨path, rest, hf⟩ : ∃ a l, point_dir_files.filter fnmatch_moMOLog = a :: l := by
    cases hfl : point_dir_files.filter fnmatch_moMOLog with
    | nil => exact absurd hfl hfile
    | cons a l => exact ⟨a, l, rfl⟩
  refine ⟨?_, hw 1, ?_, ?_⟩
  · simp [run_frame, schedule_check_step, hcond, hf]
  · simp [compute_orbitals, containsCheck]
  · intro oracle'
    cases h : schedule_check_step config point_dir_files k (oracle' 0)
        (compute_orbitals config k guess_job) <;> simp [run_frame, h]

/-- C3, witness: the amended statement at the concrete always-warning
solver. -/
theorem C3_single_retry_witness :
    (run_frame cfg_orb 0 none always_scf ["mo_aMOLog"] = (2, Except.ok (always_scf 1)) ∧
    (∃ mw ∈ (always_scf 1).getD [], mw.2 = WarningTy.SCF_Convergence_Warning) ∧
    containsCheck (compute_orbitals
      { cfg_orb with
        calc_new_wf_guess_on_points := cfg_orb.calc_new_wf_guess_on_points ++ [0] }
      0 none) = false ∧
    (∀ oracle' : Nat → Warnings,
      (run_frame cfg_orb 0 none oracle' ["mo_aMOLog"]).1 ≤ 2)) :=
  C3_single_retry_amended cfg_orb 0 none always_scf ["mo_aMOLog"] rfl
    (fun _ => ⟨("SCF did not converge", WarningTy.SCF_Convergence_Warning),
      by simp [always_scf, scf_warnings], rfl⟩)
    (by decide)

/-! ## C4 -/

/-- The main promise frame 0 of a fresh run gets (guess-settings job from
scratch, then the main job warm-started from it). -/
def frame0_main : Promise :=
  Promise.job SettingsKind.cp2k_settings_main 0
    (some (Promise.job SettingsKind.cp2k_settings_guess 0 none))

/-- C4, counterexample.  The claim says a restart-point frame's job is
built with `guess_job = none` even when a valid prior handle exists.  In a
two-frame run with restart point 1 and nothing cached, frame 1's job chain
embeds frame 0's checked promise: `compute_orbitals` passes the current
`guess_job` into the freshly prepared guess job, so the prior handle is
referenced, not dropped. -/
theorem C4_restart_override_counterexample :
    (calculate_mos cfg_restart1 [] 2).trace[1]? =
      some (FrameEvent.scheduledEv 1 (Promise.job SettingsKind.cp2k_settings_main 1
        (some (Promise.job SettingsKind.cp2k_settings_guess 1
          (some (Promise.check frame0_main)))))) ∧
    some (Promise.check frame0_main) ≠ (none : Option Promise) :=
  ⟨rfl, fun h => Option.noConfusion h⟩

/-- C4, amended.  For a non-cached frame whose index is a restart point,
the pipeline inserts a fresh guess-settings job before the frame's main
job; the main job warm-starts from that guess job rather than from the
prior handle directly — but `guess_job = none` is not forced: the inserted
guess job itself is seeded with whatever handle is current, so a valid
prior handle is still referenced (only the retry path of `schedule_check`
rebuilds with a bare `None`). -/
theorem C4_restart_override_amended (config : Config) (f5 : List String) (n j : Nat)
    (guess_job : Option Promise)
    (hmiss : is_data_in_hdf5 f5 (predicate_keys config (j + config.enumerate_from)) = false)
    (hr : config.calc_new_wf_guess_on_points.contains (j + config.enumerate_from) = true) :
    (calculate_mos_go config f5 (n + 1) j guess_job).trace.head? =
      some (FrameEvent.scheduledEv (j + config.enumerate_from)
        (Promise.job SettingsKind.cp2k_settings_main (j + config.enumerate_from)
          (some (Promise.job SettingsKind.cp2k_settings_guess (j + config.enumerate_from)
            guess_job)))) := by
  have hm : (j + config.enumerate_from) ∈ config.calc_new_wf_guess_on_points :=
    List.elem_iff.mp hr
  simp [calculate_mos_go, hmiss, compute_orbitals, hm]

/-- C4, witness: the amended statement at restart frame 5 holding the
checked handle of an earlier frame. -/
theorem C4_restart_override_witness :
    (calculate_mos_go ⟨"p", "cp2k", 0, true, false, [5]⟩ [] (0 + 1) 5
        (some (Promise.check frame0_main))).trace.head? =
      some (FrameEvent.scheduledEv (5 + Config.enumerate_from ⟨"p", "cp2k", 0, true, false, [5]⟩)
        (Promise.job SettingsKind.cp2k_settings_main
          (5 + Config.enumerate_from ⟨"p", "cp2k", 0, true, false, [5]⟩)
          (some (Promise.job SettingsKind.cp2k_settings_guess
            (5 + Config.enumerate_from ⟨"p", "cp2k", 0, true, false, [5]⟩)
            (some (Promise.check frame0_main)))))) :=
  C4_restart_override_amended ⟨"p", "cp2k", 0, true, false, [5]⟩ [] 0 5
    (some (Promise.check frame0_main)) rfl rfl

/-! ## C5 -/

/-- C5.  A completed job is accepted — its promise returned unchanged, no
corrective job — iff validation is bypassed (`ignore_warnings`) or the
emitted warning set (with `None` counting as empty) contains no SCF
non-convergence warning; and when a convergence warning is present,
validation is not bypassed and the scratch log exists, the step instead
returns the corrective resubmission: the frame index appended to the
restart list and a job rebuilt with guess `None`. -/
theorem C5_accepted_iff (config : Config) (point_dir_files : List String) (k : Nat)
    (warnings : Warnings) (promise_qm : Promise) :
    (schedule_check_step config point_dir_files k warnings promise_qm =
        CheckStep.accepted promise_qm ↔
      (config.ignore_warnings = true ∨
        ∀ mw ∈ warnings.getD [], mw.2 ≠ WarningTy.SCF_Convergence_Warning)) ∧
    (point_dir_files.filter fnmatch_moMOLog ≠ [] →
      config.ignore_warnings = false →
      (∃ mw ∈ warnings.getD [], mw.2 = WarningTy.SCF_Convergence_Warning) →
      ∃ removed, schedule_check_step config point_dir_files k warnings promise_qm =
        CheckStep.rejected (config.calc_new_wf_guess_on_points ++ [k])
          (compute_orbitals
            { config with
              calc_new_wf_guess_on_points := config.calc_new_wf_guess_on_points ++ [k] }
            k none) removed) := by
  constructor
  · rcases warnings with _ | ws
    · simp [schedule_check_step]
    · by_cases hig : config.ignore_warnings = true
      · simp [schedule_check_step, hig]
      · have hig' : config.ignore_warnings = false := by simpa using hig
        by_cases hany : ∃ mw ∈ ws, mw.2 = WarningTy.SCF_Convergence_Warning
        · have hb : ws.any (fun mw => mw.2 == WarningTy.SCF_Convergence_Warning) = true := by
            obtain ⟨mw, hm, he⟩ := hany
            exact List.any_eq_true.mpr ⟨mw, hm, by simp [he]⟩
          cases hfl : point_dir_files.filter fnmatch_moMOLog with
          | nil =>
            simp only [schedule_check_step, hig', hb, Option.isSome_some, Option.getD_some,
              Bool.not_false, Bool.and_self, if_true, hfl]
            constructor
            · intro h; exact CheckStep.noConfusion h
            · rintro (h | h)
              · exact absurd h (by simp [hig'])
              · obtain ⟨mw, hm, he⟩ := hany
                exact absurd he (h mw hm)
          | cons a l =>
            simp only [schedule_check_step, hig', hb, Option.isSome_some, Option.getD_some,
              Bool.not_false, Bool.and_self, if_true, hfl]
            constructor
            · intro h; exact CheckStep.noConfusion h
            · rintro (h | h)
              · exact absurd h (by simp [hig'])
              · obtain ⟨mw, hm, he⟩ := hany
                exact absurd he (h mw hm)
        · have hb : ws.any (fun mw => mw.2 == WarningTy.SCF_Convergence_Warning) = false := by
            rcases h : ws.any (fun mw => mw.2 == WarningTy.SCF_Convergence_Warning) with _ | _
            · rfl
            · obtain ⟨mw, hm, he⟩ := List.any_eq_true.mp h
              exact absurd ⟨mw, hm, by simpa using he⟩ hany
          simp only [schedule_check_step, hig', hb, Option.isSome_some, Option.getD_some,
            Bool.not_false, Bool.and_self, Bool.and_false, if_false]
          constructor
          · intro _
            right
            intro mw hm he
            exact hany ⟨mw, hm, he⟩
          · intro _; rfl
  · intro hfile hig hex
    have hsome : warnings.isSome = true := by
      obtain ⟨mw, hm, _⟩ := hex
      cases h0 : warnings with
      | none => rw [h0] at hm; simp at hm
      | some ws => rfl
    have hany : (warnings.getD []).any
        (fun mw => mw.2 == WarningTy.SCF_Convergence_Warning) = true := by
      obtain ⟨mw, hm, he⟩ := hex
      exact List.any_eq_true.mpr ⟨mw, hm, by simp [he]⟩
    obtain ⟨path, rest, hf⟩ : ∃ a l, point_dir_files.filter fnmatch_moMOLog = a :: l := by
      cases hfl : point_dir_files.filter fnmatch_moMOLog with
      | nil => exact absurd hfl hfile
      | cons a l => exact ⟨a, l, rfl⟩
    exact ⟨path, by simp [schedule_check_step, hig, hsome, hany, hf]⟩

/-- C5, witness: the accept/reject dichotomy at a concrete warned job. -/
theorem C5_accepted_iff_witness :
    ((schedule_check_step cfg_orb ["mo_aMOLog"] 0 scf_warnings frame0_main =
        CheckStep.accepted frame0_main ↔
      (cfg_orb.ignore_warnings = true ∨
        ∀ mw ∈ scf_warnings.getD [], mw.2 ≠ WarningTy.SCF_Convergence_Warning)) ∧
    (List.filter fnmatch_moMOLog ["mo_aMOLog"] ≠ [] →
      cfg_orb.ignore_warnings = false →
      (∃ mw ∈ scf_warnings.getD [], mw.2 = WarningTy.SCF_Convergence_Warning) →
      ∃ removed, schedule_check_step cfg_orb ["mo_aMOLog"] 0 scf_warnings frame0_main =
        CheckStep.rejected (cfg_orb.calc_new_wf_guess_on_points ++ [0])
          (compute_orbitals
            { cfg_orb with
              calc_new_wf_guess_on_points := cfg_orb.calc_new_wf_guess_on_points ++ [0] }
            0 none) removed)) :=
  C5_accepted_iff cfg_orb ["mo_aMOLog"] 0 scf_warnings frame0_main

/-! ## C7 -/

/-- C7.  The store existence check on a composite key set is true iff every
key of the set is present — `search_data_in_hdf5` returns the key set only
when `all` of its paths are in the file; in particular, with only the
eigenvalues key present (no coefficients) the check reports `None` rather
than a partial hit, and the one-frame pipeline run over such a store
schedules the frame for recomputation. -/
theorem C7_composite_key_atomicity :
    (∀ (f5 : List String) (project_name package_name : String) (i : Nat),
        (nac.search_data_in_hdf5 f5 project_name package_name i).isSome = true ↔
          ∀ path ∈ nac.create_properties_path project_name package_name i, path ∈ f5) ∧
    nac.search_data_in_hdf5 ["p/point_0/cp2k/mo/eigenvalues"] "p" "cp2k" 0 = none ∧
    (calculate_mos cfg_orb ["p/point_0/cp2k/mo/eigenvalues"] 1).trace =
      [FrameEvent.scheduledEv 0 frame0_main] := by
  refine ⟨?_, rfl, rfl⟩
  intro f5 project_name package_name i
  constructor
  · intro hs
    by_cases h : (nac.create_properties_path project_name package_name i).all
        (fun path => f5.contains path) = true
    · intro path hp
      exact List.elem_iff.mp (List.all_eq_true.mp h path hp)
    · exfalso
      have hb : (nac.create_properties_path project_name package_name i).all
          (fun path => f5.contains path) = false := by simpa using h
      simp only [nac.search_data_in_hdf5] at hs
      rw [hb] at hs
      simp at hs
  · intro hall
    have h : (nac.create_properties_path project_name package_name i).all
        (fun path => f5.contains path) = true :=
      List.all_eq_true.mpr fun path hp => List.elem_iff.mpr (hall path hp)
    simp only [nac.search_data_in_hdf5]
    rw [h]
    simp

/-! ## C8 -/

/-- C8, counterexample.  The claim says an out-of-range restart index makes
the pipeline fail with a `ConfigurationError` before any solver work.  No
such validation exists anywhere in the pipeline: with restart point 99 and
a single frame, the run completes normally, schedules the frame's solver
job, and is identical to the run with no restart points at all. -/
theorem C8_out_of_range_restart_counterexample :
    calculate_mos cfg_oor [] 1 = calculate_mos cfg_orb [] 1 ∧
    (calculate_mos cfg_oor [] 1).trace = [FrameEvent.scheduledEv 0 frame0_main] :=
  ⟨rfl, rfl⟩

/-- Dropping the restart list does not change a job whose frame index is
not on it: the membership test is the only place the list is read. -/
theorem compute_orbitals_restarts_irrelevant (config : Config) (k : Nat)
    (g : Option Promise)
    (h : k ∉ config.calc_new_wf_guess_on_points) :
    compute_orbitals config k g =
      compute_orbitals { config with calc_new_wf_guess_on_points := [] } k g := by
  simp [compute_orbitals, h]

/-- HDF5 node names do not read the restart list. -/
theorem node_MOs_set_points (config : Config) (l : List Nat) (k : Nat) :
    node_MOs { config with calc_new_wf_guess_on_points := l } k = node_MOs config k := rfl

/-- The energy node name does not read the restart list. -/
theorem node_energy_set_points (config : Config) (l : List Nat) (k : Nat) :
    node_energy { config with calc_new_wf_guess_on_points := l } k = node_energy config k := rfl

/-- The skip-check key set does not read the restart list. -/
theorem predicate_keys_set_points (config : Config) (l : List Nat) (k : Nat) :
    predicate_keys { config with calc_new_wf_guess_on_points := l } k =
      predicate_keys config k := rfl

/-- A `calculate_mos` walk in which no processed frame index lies on the
restart list equals the walk with the restart list emptied. -/
theorem calculate_mos_go_restarts_irrelevant (config : Config) (f5 : List String) :
    ∀ (n j : Nat) (guess_job : Option Promise),
      (∀ i, j ≤ i → i < j + n →
        (i + config.enumerate_from) ∉ config.calc_new_wf_guess_on_points) →
      calculate_mos_go config f5 n j guess_job =
        calculate_mos_go { config with calc_new_wf_guess_on_points := [] } f5 n j guess_job := by
  intro n
  induction n with
  | zero => intro j g _; rfl
  | succ n ih =>
    intro j g hout
    have hk : (j + config.enumerate_from) ∉ config.calc_new_wf_guess_on_points :=
      hout j (Nat.le_refl j) (by omega)
    have ihr : ∀ g', calculate_mos_go config f5 n (j + 1) g' =
        calculate_mos_go { config with calc_new_wf_guess_on_points := [] } f5 n (j + 1) g' :=
      fun g' => ih (j + 1) g' (fun i h1 h2 => hout i (by omega) (by omega))
    by_cases h : is_data_in_hdf5 f5 (predicate_keys config (j + config.enumerate_from)) = true
    · have h2 : is_data_in_hdf5 f5
          (predicate_keys { config with calc_new_wf_guess_on_points := [] }
            (j + Config.enumerate_from { config with calc_new_wf_guess_on_points := [] })) =
          true := h
      simp [calculate_mos_go, h, h2, ihr g, node_MOs_set_points, node_energy_set_points]
    · have h' : is_data_in_hdf5 f5 (predicate_keys config (j + config.enumerate_from)) =
          false := by simpa using h
      have h2 : is_data_in_hdf5 f5
          (predicate_keys { config with calc_new_wf_guess_on_points := [] }
            (j + Config.enumerate_from { config with calc_new_wf_guess_on_points := [] })) =
          false := h'
      have hco : compute_orbitals config (j + config.enumerate_from) g =
          compute_orbitals { config with calc_new_wf_guess_on_points := [] }
            (j + config.enumerate_from) g :=
        compute_orbitals_restarts_irrelevant config (j + config.enumerate_from) g hk
      simp [calculate_mos_go, h', h2, hco, ihr, node_MOs_set_points, node_energy_set_points]

/-- C8, amended.  Out-of-range restart indices are not validated: the
pipeline defines no `ConfigurationError` and raises nothing; an index
outside the frame range matches no frame's membership test, so the run is
identical to the run with those indices removed, solver work included. -/
theorem C8_out_of_range_restart_amended (config : Config) (f5 : List String) (N : Nat)
    (hout : ∀ x ∈ config.calc_new_wf_guess_on_points,
      x < config.enumerate_from ∨ config.enumerate_from + N ≤ x) :
    calculate_mos config f5 N =
      calculate_mos { config with calc_new_wf_guess_on_points := [] } f5 N := by
  unfold calculate_mos
  apply calculate_mos_go_restarts_irrelevant
  intro i h0 hi hmem
  rcases hout _ hmem with h | h <;> omega

/-- C8, witness: the amended statement at the out-of-range restart point 99
on a one-frame run. -/
theorem C8_out_of_range_restart_witness :
    calculate_mos cfg_oor [] 1 =
      calculate_mos { cfg_oor with calc_new_wf_guess_on_points := [] } [] 1 :=
  C8_out_of_range_restart_amended cfg_oor [] 1 (by decide)

/-! ## C2 -/

/-- In a run with an empty restart list and no cache hit anywhere, every
frame is scheduled, and each scheduled frame after the first gets as its
main job's warm-start handle the `schedule_check`-wrapped promise of the
previous frame's main job. -/
theorem calculate_mos_go_trace_pair (config : Config) (f5 : List String)
    (hres : config.calc_new_wf_guess_on_points = [])
    (hmiss : ∀ m : Nat,
      is_data_in_hdf5 f5 (predicate_keys config (m + config.enumerate_from)) = false) :
    ∀ (i n j : Nat) (g : Option Promise), i + 1 < n →
      ∃ p : Promise,
        (calculate_mos_go config f5 n j g).trace[i]? =
          some (FrameEvent.scheduledEv (j + i + config.enumerate_from) p) ∧
        (calculate_mos_go config f5 n j g).trace[i + 1]? =
          some (FrameEvent.scheduledEv (j + i + 1 + config.enumerate_from)
            (Promise.job SettingsKind.cp2k_settings_main (j + i + 1 + config.enumerate_from)
              (some (Promise.check p)))) := by
  intro i
  induction i with
  | zero =>
    intro n j g h1
    obtain ⟨m, rfl⟩ : ∃ m, n = m + 2 := ⟨n - 2, by omega⟩
    have hj := hmiss j
    have hj1 := hmiss (j + 1)
    refine ⟨compute_orbitals config (j + config.enumerate_from) g, ?_, ?_⟩
    · simp [calculate_mos_go, hj]
    · simp [calculate_mos_go, hj, hj1, compute_orbitals, hres]
  | succ i ih =>
    intro n j g h1
    obtain ⟨m, rfl⟩ : ∃ m, n = m + 1 := ⟨n - 1, by omega⟩
    have hj := hmiss j
    obtain ⟨p, hp1, hp2⟩ := ih m (j + 1)
      (some (Promise.check (compute_orbitals config (j + config.enumerate_from) g)))
      (by omega)
    have hcons : (calculate_mos_go config f5 (m + 1) j g).trace =
        FrameEvent.scheduledEv (j + config.enumerate_from)
            (compute_orbitals config (j + config.enumerate_from) g) ::
          (calculate_mos_go config f5 m (j + 1)
            (some (Promise.check
              (compute_orbitals config (j + config.enumerate_from) g)))).trace := by
      simp [calculate_mos_go, hj]
    refine ⟨p, ?_, ?_⟩
    · rw [hcons, List.getElem?_cons_succ]
      have harith : j + 1 + i = j + (i + 1) := by omega
      rw [harith] at hp1
      exact hp1
    · rw [hcons, List.getElem?_cons_succ]
      have harith : j + 1 + i + 1 = j + (i + 1) + 1 := by omega
      rw [harith] at hp2
      exact hp2

/-- C2.  For a run with no restart points and no cache hits, every frame
`k + 1` in range is scheduled with a main job that embeds as its warm-start
handle the (`schedule_check`-wrapped) promise produced by frame `k`'s main
job, so the sequence of guess handles observed by consecutive frames follows
frame-index order by data dependency. -/
theorem C2_guess_propagation (config : Config) (f5 : List String) (N : Nat)
    (hres : config.calc_new_wf_guess_on_points = [])
    (hmiss : ∀ m : Nat,
      is_data_in_hdf5 f5 (predicate_keys config (m + config.enumerate_from)) = false)
    (k : Nat) (hk : k + 1 < N) :
    ∃ p : Promise,
      (calculate_mos config f5 N).trace[k]? =
        some (FrameEvent.scheduledEv (k + config.enumerate_from) p) ∧
      (calculate_mos config f5 N).trace[k + 1]? =
        some (FrameEvent.scheduledEv (k + 1 + config.enumerate_from)
          (Promise.job SettingsKind.cp2k_settings_main (k + 1 + config.enumerate_from)
            (some (Promise.check p)))) := by
  have h := calculate_mos_go_trace_pair config f5 hres hmiss k N 0 none hk
  simpa [calculate_mos] using h

/-- C2, witness: the chain at frames 0 and 1 of a fresh three-frame run. -/
theorem C2_guess_propagation_witness :
    ∃ p : Promise,
      (calculate_mos cfg_orb [] 3).trace[0]? =
        some (FrameEvent.scheduledEv (0 + cfg_orb.enumerate_from) p) ∧
      (calculate_mos cfg_orb [] 3).trace[0 + 1]? =
        some (FrameEvent.scheduledEv (0 + 1 + cfg_orb.enumerate_from)
          (Promise.job SettingsKind.cp2k_settings_main (0 + 1 + cfg_orb.enumerate_from)
            (some (Promise.check p)))) :=
  C2_guess_propagation cfg_orb [] 3 rfl (fun _ => rfl) 0 (by decide)

/-! ## C10 -/

/-- Strict containment: `p` lies strictly below directory `d`. -/
def inside_dir (d p : FsPath) : Prop := d <+: p ∧ d ≠ p

/-- Strict containment strictly increases segment count. -/
theorem inside_dir_length {d p : FsPath} (h : inside_dir d p) : d.length < p.length := by
  rcases h with ⟨hpre, hne⟩
  rcases Nat.lt_or_ge d.length p.length with hlt | hge
  · exact hlt
  · exact absurd (hpre.eq_of_length (Nat.le_antisymm hpre.length_le hge)) hne

/-- A point folder is one segment below the working directory. -/
theorem point_dir_path_length (w : FsPath) (k : Nat) :
    (point_dir_path w k).length = w.length + 1 := by
  simp [point_dir_path]

/-- No point folder lies strictly below another. -/
theorem not_inside_point_dirs (w : FsPath) (k m : Nat) :
    ¬ inside_dir (point_dir_path w k) (point_dir_path w m) := by
  intro h
  have := inside_dir_length h
  simp [point_dir_path_length] at this

/-- The only paths the `create_point_folder` walk ever adds are the point
folders themselves: any member of the resulting filesystem was either there
before or is one of the created folders. -/
theorem mem_create_point_folder_go_fst (w : FsPath) :
    ∀ (n : Nat) (fs : List FsPath) (k : Nat) (q : FsPath),
      q ∈ (create_point_folder_go w fs n k).1 →
      q ∈ fs ∨ ∃ m, k ≤ m ∧ m < k + n ∧ q = point_dir_path w m := by
  intro n
  induction n with
  | zero => intro fs k q hq; exact Or.inl hq
  | succ n ih =>
    intro fs k q hq
    simp only [create_point_folder_go] at hq
    rcases ih _ (k + 1) q hq with hq' | ⟨m, h1, h2, h3⟩
    · simp only [makedirs, List.mem_cons] at hq'
      rcases hq' with rfl | hq''
      · exact Or.inr ⟨k, Nat.le_refl k, by omega, rfl⟩
      · by_cases hex : path_exists fs (point_dir_path w k) = true
        · rw [if_pos hex] at hq''
          exact Or.inl (List.mem_filter.mp hq'').1
        · rw [if_neg hex] at hq''
          exact Or.inl hq''
    · exact Or.inr ⟨m, by omega, by omega, h3⟩

/-- Well-formedness of the filesystem model relative to a working
directory: a path lying strictly below a point folder implies that folder
itself exists (true of any real directory tree). -/
def point_dirs_wf (w : FsPath) (fs : List FsPath) : Prop :=
  ∀ (k : Nat) (p : FsPath), p ∈ fs → inside_dir (point_dir_path w k) p →
    point_dir_path w k ∈ fs

/-- One iteration of the nanoqm walk (delete-if-present then recreate)
preserves well-formedness. -/
theorem point_dirs_wf_step (w : FsPath) (fs : List FsPath) (k : Nat)
    (hwf : point_dirs_wf w fs) :
    point_dirs_wf w (makedirs (if path_exists fs (point_dir_path w k) then
      rmtree fs (point_dir_path w k) else fs) (point_dir_path w k)) := by
  intro m p hp hin
  simp only [makedirs, List.mem_cons] at hp
  rcases hp with rfl | hp'
  · exact absurd hin (not_inside_point_dirs w m k)
  · have hpfs : p ∈ fs := by
      by_cases hex : path_exists fs (point_dir_path w k) = true
      · rw [if_pos hex] at hp'
        exact (List.mem_filter.mp hp').1
      · rw [if_neg hex] at hp'
        exact hp'
    have hm : point_dir_path w m ∈ fs := hwf m p hpfs hin
    by_cases heq : point_dir_path w m = point_dir_path w k
    · simp [makedirs, heq]
    · simp only [makedirs, List.mem_cons]
      right
      by_cases hex : path_exists fs (point_dir_path w k) = true
      · rw [if_pos hex]
        refine List.mem_filter.mpr ⟨hm, ?_⟩
        have hnp : ¬ (point_dir_path w k <+: point_dir_path w m) := by
          intro hpre
          exact heq (hpre.eq_of_length (by simp [point_dir_path_length])).symm
        cases hb : List.isPrefixOf (point_dir_path w k) (point_dir_path w m) with
        | false => simp
        | true => exact absurd (List.isPrefixOf_iff_prefix.mp hb) hnp
      · rw [if_neg hex]
        exact hm

/-- On a well-formed filesystem, the nanoqm walk leaves nothing strictly
below any point folder of its range: each folder is deleted (when present)
and recreated empty, and later iterations re-add only sibling point
folders. -/
theorem create_point_folder_go_clears (w : FsPath) :
    ∀ (n : Nat) (fs : List FsPath) (e : Nat), point_dirs_wf w fs →
      ∀ k, e ≤ k → k < e + n → ∀ p, inside_dir (point_dir_path w k) p →
        p ∉ (create_point_folder_go w fs n e).1 := by
  intro n
  induction n with
  | zero => intro fs e _ k h1 h2; omega
  | succ n ih =>
    intro fs e hwf k h1 h2 p hin hmem
    by_cases hk : k = e
    · subst hk
      simp only [create_point_folder_go] at hmem
      rcases mem_create_point_folder_go_fst w n _ (k + 1) p hmem with hp | ⟨m, hm1, _, rfl⟩
      · simp only [makedirs, List.mem_cons] at hp
        rcases hp with rfl | hp'
        · exact hin.2 rfl
        · by_cases hex : path_exists fs (point_dir_path w k) = true
          · rw [if_pos hex] at hp'
            have hkeep := (List.mem_filter.mp hp').2
            rw [Bool.not_eq_true'] at hkeep
            rw [List.isPrefixOf_iff_prefix.mpr hin.1] at hkeep
            exact Bool.noConfusion hkeep
          · rw [if_neg hex] at hp'
            have := hwf k p hp' hin
            exact hex (List.elem_iff.mpr this)
      · exact not_inside_point_dirs w k m hin
    · simp only [create_point_folder_go] at hmem
      exact ih _ (e + 1) (point_dirs_wf_step w fs e hwf) k (by omega) (by omega) p hin hmem

/-- The nanoqm walk returns the point folders of its range in increasing
index order. -/
theorem create_point_folder_go_snd (w : FsPath) :
    ∀ (n : Nat) (fs : List FsPath) (k : Nat),
      (create_point_folder_go w fs n k).2 = (List.range' k n).map (point_dir_path w) := by
  intro n
  induction n with
  | zero => intro fs k; rfl
  | succ n ih =>
    intro fs k
    rw [List.range'_succ]
    simp only [create_point_folder_go, List.map_cons]
    rw [ih]

/-- The legacy nac walk returns the same folder list. -/
theorem nac_create_point_folder_go_snd (w : FsPath) :
    ∀ (n : Nat) (fs : List FsPath) (k : Nat),
      (nac.create_point_folder_go w fs n k).2 = (List.range' k n).map (point_dir_path w) := by
  intro n
  induction n with
  | zero => intro fs k; rfl
  | succ n ih =>
    intro fs k
    rw [List.range'_succ]
    simp only [nac.create_point_folder_go, List.map_cons]
    rw [ih]

/-- C10, counterexample.  The claim says `create_point_folder` deletes any
pre-existing point directory with all of its contents, so stored data never
survives a call.  The legacy `nac` variant creates the folder only when it
is absent: on a filesystem where `w/point_0` already exists and holds
`w/point_0/old`, the call leaves the filesystem untouched and the old data
survives. -/
theorem C10_point_folder_counterexample :
    nac.create_point_folder [["w", "point_0"], ["w", "point_0", "old"]] ["w"] 1 0 =
      ([["w", "point_0"], ["w", "point_0", "old"]], [["w", "point_0"]]) ∧
    ["w", "point_0", "old"] ∈
      (nac.create_point_folder [["w", "point_0"], ["w", "point_0", "old"]] ["w"] 1 0).1 :=
  ⟨rfl, by decide⟩

/-- C10, amended.  Both implementations return the `n` paths
`work_dir/point_{e} .. work_dir/point_{e+n-1}` in increasing index order;
the nanoqm implementation deletes every pre-existing point directory of the
range together with its contents before recreating it (on a well-formed
filesystem nothing strictly below a processed point folder survives), but
the legacy nac implementation only creates missing folders and leaves a
pre-existing folder's contents in place. -/
theorem C10_point_folder_amended :
    (∀ (fs : List FsPath) (w : FsPath) (n e : Nat),
        (create_point_folder fs w n e).2 = (List.range' e n).map (point_dir_path w)) ∧
    (∀ (fs : List FsPath) (w : FsPath) (n e : Nat),
        (nac.create_point_folder fs w n e).2 = (List.range' e n).map (point_dir_path w)) ∧
    (∀ (fs : List FsPath) (w : FsPath) (n e : Nat),
        point_dirs_wf w fs →
        ∀ k, e ≤ k → k < e + n → ∀ p, inside_dir (point_dir_path w k) p →
          p ∉ (create_point_folder fs w n e).1) := by
  refine ⟨?_, ?_, ?_⟩
  · intro fs w n e
    exact create_point_folder_go_snd w n fs e
  · intro fs w n e
    exact nac_create_point_folder_go_snd w n fs e
  · intro fs w n e hwf
    exact create_point_folder_go_clears w n fs e hwf

/-- C10, witness: on the same pre-populated filesystem, the nanoqm
implementation does delete the old contents. -/
theorem C10_point_folder_witness :
    ["w", "point_0", "old"] ∉
      (create_point_folder [["w", "point_0"], ["w", "point_0", "old"]] ["w"] 1 0).1 :=
  C10_point_folder_amended.2.2 [["w", "point_0"], ["w", "point_0", "old"]] ["w"] 1 0
    (by
      intro k p hp hin
      simp only [List.mem_cons, List.not_mem_nil, or_false] at hp
      rcases hp with rfl | rfl
      · have := inside_dir_length hin
        simp [point_dir_path_length] at this
      · rcases hin.1 with ⟨t, ht⟩
        simp only [point_dir_path, List.cons_append, List.nil_append, List.cons.injEq] at ht
        obtain ⟨-, h1, -⟩ := ht
        simp [point_dir_path, h1])
    0 (Nat.le_refl 0) (by omega) ["w", "point_0", "old"]
    (by
      refine ⟨⟨["old"], ?_⟩, ?_⟩
      · rfl
      · decide)
